import Mathlib

/-!
Verification development for the botvana trading-bot node (`botnode`).

The Rust sources embedded here are `src/botnode/src/market_data/ftx.rs`,
`src/botnode/src/control.rs` and `src/botnode/src/engine.rs`.  Machine
floats (`f64` prices, sizes and timestamps) are modelled as `Nat`: the
properties at issue concern ordering and merging of price levels, never
float rounding.  Fallible Rust code is modelled with `Except`/`Option`;
a Rust panic (`unwrap` on `None`) is modelled by a distinguished result
(`Option.none`, or a `panicked` constructor of an outcome type).
-/

namespace Botnode

/-! ## Price levels and order books

`PriceLevelsVec` and `PlainOrderbook` live in the `botvana` library crate,
which is not part of the source slice; they are modelled from the spec
(§3 data model, §4.6 merge algorithm). -/

/-- Ordering of price levels: `priceLt d p q = true` when price `p` must come
before price `q` on a side with direction `d` (`d = true` is descending,
used for bids; `d = false` ascending, used for asks). -/
def priceLt (d : Bool) (p q : Nat) : Bool :=
  if d then q < p else p < q

/-- A price-level list is sorted for direction `d` when every earlier level
has a price strictly before every later one (strict, hence no duplicates). -/
def sortedLevels (d : Bool) (l : List (Nat × Nat)) : Prop :=
  l.Pairwise (fun a b => priceLt d a.1 b.1 = true)

/-- Looks up the size stored at price `p` (first match). -/
def lookupLevel : List (Nat × Nat) → Nat → Option Nat
  | [], _ => none
  | e :: rest, p => if e.1 = p then some e.2 else lookupLevel rest p

/-- Inserts the level `(p, s)` keeping direction-`d` order; an existing level
at the same price is replaced. -/
def insertLevel (d : Bool) (p s : Nat) : List (Nat × Nat) → List (Nat × Nat)
  | [] => [(p, s)]
  | e :: rest =>
    if priceLt d p e.1 then (p, s) :: e :: rest
    else if p = e.1 then (p, s) :: rest
    else e :: insertLevel d p s rest

/-- Removes the level at price `p`, if present. -/
def removeLevel (p : Nat) (l : List (Nat × Nat)) : List (Nat × Nat) :=
  l.filter (fun e => e.1 ≠ p)

/-- Applies one `(price, size)` delta pair: size `0` removes the level,
a positive size replaces or inserts it (spec §4.6). -/
def applyLevel (d : Bool) (acc : List (Nat × Nat)) (e : Nat × Nat) :
    List (Nat × Nat) :=
  if e.2 = 0 then removeLevel e.1 acc else insertLevel d e.1 e.2 acc

/-- Modelled from the spec: `PriceLevelsVec` of the `botvana` crate (absent
from the source slice) — an ordered collection keyed by price with the
invariant that zero-size entries are never stored (§3). -/
structure PriceLevelsVec where
  levels : List (Nat × Nat)
deriving DecidableEq

/-- Modelled from the spec: `PriceLevelsVec::from_tuples_vec_unsorted` builds
a fresh sorted price-level set from unsorted `(price, size)` pairs; the spec
fixes the direction per side (descending for bids, ascending for asks), which
the caller passes as `d`. Zero-size pairs are not stored (§3 invariant). -/
def PriceLevelsVec.from_tuples_vec_unsorted (d : Bool)
    (pairs : List (Nat × Nat)) : PriceLevelsVec :=
  ⟨(pairs.filter (fun e => e.2 ≠ 0)).foldl
      (fun acc e => insertLevel d e.1 e.2 acc) []⟩

/-- Modelled from the spec: `PriceLevelsVec::from_tuples_vec` wraps the given
pairs as a delta vector without normalisation (zero sizes are kept — in a
delta a zero size means removal). -/
def PriceLevelsVec.from_tuples_vec (pairs : List (Nat × Nat)) :
    PriceLevelsVec :=
  ⟨pairs⟩

/-- Modelled from the spec: merging a delta into one side — every pair of the
delta is upserted in order (size `0` removes, positive size replaces/inserts),
re-establishing the direction-`d` ordering (§4.6). -/
def PriceLevelsVec.update (d : Bool) (l : PriceLevelsVec)
    (delta : PriceLevelsVec) : PriceLevelsVec :=
  ⟨delta.levels.foldl (applyLevel d) l.levels⟩

/-- Modelled from the spec: `PlainOrderbook` of the `botvana` crate — bids,
asks and the `as_of` timestamp for one market (§3). -/
structure PlainOrderbook where
  bids : PriceLevelsVec
  asks : PriceLevelsVec
  time : Nat
deriving DecidableEq

/-- Modelled from the spec: `PlainOrderbook::new` — an empty book. -/
def PlainOrderbook.new : PlainOrderbook :=
  ⟨⟨[]⟩, ⟨[]⟩, 0⟩

/-- Modelled from the spec: `PlainOrderbook::update_with_timestamp` merges a
bid delta and an ask delta into the book and sets its timestamp to the
delta's (§4.6 `update`). -/
def PlainOrderbook.update_with_timestamp (ob : PlainOrderbook)
    (bids asks : PriceLevelsVec) (time : Nat) : PlainOrderbook :=
  { bids := ob.bids.update true bids
    asks := ob.asks.update false asks
    time := time }

/-! ## The adapter's per-market table

`HashMap<Box<str>, PlainOrderbook<f64>>` is modelled as an association list
with `HashMap` observational semantics (`insert` replaces the entry at the
key and leaves all other keys untouched). -/

def Table := List (String × PlainOrderbook)

def tableGet : Table → String → Option PlainOrderbook
  | [], _ => none
  | e :: rest, s => if e.1 = s then some e.2 else tableGet rest s

def tableInsert : Table → String → PlainOrderbook → Table
  | [], s, ob => [(s, ob)]
  | e :: rest, s, ob =>
    if e.1 = s then (s, ob) :: rest else e :: tableInsert rest s ob

/-! ## Domain types (`botvana::market`)

Modelled from the spec §3: `Market`, `Trade`, `MarketEvent`. -/

/-- Modelled from the spec: tagged market type — `Spot{base, quote}` or
`Futures` (§3). -/
inductive MarketType where
  | Spot (base quote : String)
  | Futures
deriving DecidableEq

/-- Modelled from the spec: `botvana::market::Market` metadata record (§3). -/
structure Market where
  name : String
  native_symbol : String
  size_increment : Nat
  price_increment : Nat
  type : MarketType
deriving DecidableEq

/-- Modelled from the spec: `botvana::market::trade::Trade` — one executed
trade; `received_at` is the local receipt time (§3). -/
structure Trade where
  price : Nat
  size : Nat
  received_at : Nat
  time : Nat
deriving DecidableEq

/-- Modelled from the spec: `MarketEvent` payload — a trade batch or an
order-book snapshot copy (§3). -/
inductive MarketEventType where
  | trades (market : String) (trades : List Trade)
  | orderbookUpdate (market : String) (orderbook : PlainOrderbook)
deriving DecidableEq

/-- Modelled from the spec: `MarketEvent` — the unit written to the data
channel, carrying an event timestamp (§3). -/
structure MarketEvent where
  type : MarketEventType
  timestamp : Nat
deriving DecidableEq

/-- `MarketDataError` (`src/botnode/src/market_data/error.rs`, referenced by
the adapter): wraps an underlying cause — either the typed
`UnknownVariantError { variant }` or another boxed source error. -/
inductive MarketDataError where
  | unknownVariant (variant : String)
  | withSource (message : String)
deriving DecidableEq

namespace ws

/-- `ftx::ws::OrderbookMsg` from `market_data/ftx.rs`. -/
structure OrderbookMsg where
  time : Nat
  bids : List (Nat × Nat)
  asks : List (Nat × Nat)
  action : String
deriving DecidableEq

/-- `ftx::ws::Trade` from `market_data/ftx.rs` — the wire-level trade record;
`time` is the raw timestamp text still to be parsed. -/
structure Trade where
  id : Int
  price : Nat
  side : String
  size : Nat
  liquidation : Bool
  time : String
deriving DecidableEq

/-- `ftx::ws::Data` from `market_data/ftx.rs`. -/
inductive Data where
  | Trades (trades : List ws.Trade)
  | Orderbook (msg : OrderbookMsg)
deriving DecidableEq

/-- `ftx::ws::WsMsg` from `market_data/ftx.rs` — a decoded inbound frame. -/
structure WsMsg where
  channel : String
  market : Option String
  data : Data
  type : Option String
deriving DecidableEq

end ws

/-- `TryFrom<&ws::Trade> for botvana::market::trade::Trade`
(`market_data/ftx.rs`): required-field parsing of the timestamp; the chrono
parse of the timestamp text is modelled by `String.toNat?`.  `now` models
`Instant::now()` for `received_at`. -/
def Trade.try_from (now : Nat) (t : ws.Trade) : Except String Trade :=
  match t.time.toNat? with
  | some ts =>
    .ok { price := t.price, size := t.size, received_at := now, time := ts }
  | none => .error ("error parsing: " ++ t.time)

/-- `Ftx::process_ws_msg` (`market_data/ftx.rs`, after serde decode of the
frame into `ws::WsMsg`): the decode+merge entry point.  `now` models
`Utc::now()`.  A result of `none` models a Rust panic — the source calls
`ws_msg.market.unwrap()` on every path that builds an event, and
`markets.get_mut(..).unwrap()` on the `"update"` path. -/
def process_ws_msg (now : Nat) (msg : ws.WsMsg) (markets : Table) :
    Option (Except MarketDataError (Option MarketEvent) × Table) :=
  match msg.data with
  | .Trades trades =>
    match msg.market with
    | none => none
    | some mkt =>
      let parsed := trades.filterMap (fun t => (Trade.try_from now t).toOption)
      some (.ok (some { type := .trades mkt parsed, timestamp := now }),
            markets)
  | .Orderbook obMsg =>
    if obMsg.action = "partial" then
      match msg.market with
      | none => none
      | some mkt =>
        let orderbook : PlainOrderbook :=
          { bids := PriceLevelsVec.from_tuples_vec_unsorted true obMsg.bids
            asks := PriceLevelsVec.from_tuples_vec_unsorted false obMsg.asks
            time := obMsg.time }
        some (.ok (some { type := .orderbookUpdate mkt orderbook,
                          timestamp := now }),
              tableInsert markets mkt orderbook)
    else if obMsg.action = "update" then
      match msg.market with
      | none => none
      | some mkt =>
        match tableGet markets mkt with
        | none => none
        | some ob =>
          let ob := ob.update_with_timestamp
            (PriceLevelsVec.from_tuples_vec obMsg.bids)
            (PriceLevelsVec.from_tuples_vec obMsg.asks)
            obMsg.time
          some (.ok (some { type := .orderbookUpdate mkt ob,
                            timestamp := now }),
                tableInsert markets mkt ob)
    else
      some (.error (.unknownVariant obMsg.action), markets)

namespace rest

/-- `ftx::rest::MarketInfo` from `market_data/ftx.rs` — one record of the
exchange's market-enumeration response (floats modelled as `Nat`). -/
structure MarketInfo where
  name : String
  base_currency : Option String
  quote_currency : Option String
  min_provide_size : Nat
  type : String
  underlying : Option String
  enabled : Bool
  post_only : Option Bool
  price_increment : Nat
  size_increment : Nat
  restricted : Option Bool
deriving DecidableEq

end rest

/-- `TryFrom<&MarketInfo> for botvana::market::Market`
(`market_data/ftx.rs`): `"spot"` requires both currencies and maps to
`Spot{base, quote}`; `"future"` maps to `Futures`; anything else is an
`Invalid market type` error. -/
def Market.try_from (market : rest.MarketInfo) : Except String Market :=
  if market.type = "spot" then
    match market.base_currency with
    | none => .error "Missing base currency"
    | some base =>
      match market.quote_currency with
      | none => .error "Missing quote currency"
      | some quote =>
        .ok { name := market.name
              native_symbol := market.name
              size_increment := market.size_increment
              price_increment := market.price_increment
              type := .Spot base quote }
  else if market.type = "future" then
    .ok { name := market.name
          native_symbol := market.name
          size_increment := market.size_increment
          price_increment := market.price_increment
          type := .Futures }
  else
    .error ("Invalid market type: " ++ market.type)

/-- `Ftx::fetch_markets` (`market_data/ftx.rs`), modelled from the point
where the HTTP response has been decoded into the `MarketInfo` records: every
record is translated with `Market::try_from` and the failures are dropped by
`filter_map(.. .ok())`. -/
def fetch_markets (markets : List rest.MarketInfo) :
    Except MarketDataError (List Market) :=
  .ok (markets.filterMap (fun m => (Market.try_from m).toOption))

/-! ## Control engine (`control.rs`, `engine.rs`)

The transport (`TcpStream`, `Framed` with `BotvanaCodec`) and the clock are
externals; one connection attempt is driven by a `ConnAttempt` trace giving
the outcome of each fallible step and the sequence of `select!` arms that
fire.  A panic is a distinguished outcome constructor. -/

/-- Modelled from the spec: `BotId` — opaque node identifier (§3). -/
structure BotId where
  id : Nat
deriving DecidableEq

/-- Modelled from the spec: the control wire protocol's message kind —
`Hello{bot_id}`, `Ping`, or an opaque server message (§6). -/
inductive Message where
  | hello (bot_id : BotId)
  | ping
  | other (payload : String)
deriving DecidableEq

/-- `BotnodeStatus` from `control.rs`. -/
inductive BotnodeStatus where
  | Connecting
  | Online
  | Offline
deriving DecidableEq

/-- `EngineError` from `engine.rs` — an empty struct. -/
structure EngineError where
deriving DecidableEq

/-- `ControlEngine` from `control.rs`; `ping_interval` is in seconds. -/
structure ControlEngine where
  bot_id : BotId
  server_addr : String
  status : BotnodeStatus
  ping_interval : Nat
deriving DecidableEq

/-- `ControlEngine::new` from `control.rs`. -/
def ControlEngine.new (bot_id : BotId) (server_addr : String) :
    ControlEngine :=
  { bot_id := bot_id
    server_addr := server_addr
    status := BotnodeStatus.Offline
    ping_interval := 5 }

/-- One firing of the `select!` multiplexer in `control_loop`:
an inbound frame (`Some(Ok(msg))`), an inbound error (`Some(Err(e))`), a
clean close (`None`), the ping timer (with the outcome of sending the
`Ping`), or the shutdown signal. -/
inductive LoopEvent where
  | msgOk (m : Message)
  | msgErr
  | disconnected
  | pingTick (sendOk : Bool)
  | shutdownTriggered
deriving DecidableEq

/-- The environment of one `control_loop` call: whether the shutdown
delay-token was acquired, whether `TcpStream::connect` succeeded, whether
sending the `Hello` succeeded, and the sequence of `select!` arms fired. -/
structure ConnAttempt where
  tokenOk : Bool
  connectOk : Bool
  helloSendOk : Bool
  events : List LoopEvent
deriving DecidableEq

instance : DecidableEq (Except EngineError Unit)
  | .ok a, .ok b => isTrue (by cases a; cases b; rfl)
  | .ok _, .error _ => isFalse (fun h => by cases h)
  | .error _, .ok _ => isFalse (fun h => by cases h)
  | .error a, .error b => isTrue (by cases a; cases b; rfl)

/-- Result of one `control_loop` call: a panic, a still-running loop (the
event trace ran out), or a return carrying the engine state and the
`Result<(), EngineError>`. -/
inductive LoopOutcome where
  | panicked
  | running (c : ControlEngine)
  | exited (c : ControlEngine) (r : Except EngineError Unit)
deriving DecidableEq

/-- The inner `loop \x7b futures::select! \x7b .. \x7d \x7d` of
`control_loop` (`control.rs`): a valid inbound message while
`Offline`/`Connecting` sets the status to `Online`; an inbound error or a
clean close returns `Err(EngineError)` (without touching the status); the
ping timer sends a `Ping` whose failure is unwrapped — a panic; the
shutdown signal breaks with `Ok(())`. -/
def run_events (c : ControlEngine) : List LoopEvent → LoopOutcome
  | [] => LoopOutcome.running c
  | LoopEvent.msgOk _ :: evs =>
    if c.status = BotnodeStatus.Offline ∨ c.status = BotnodeStatus.Connecting
    then run_events { c with status := BotnodeStatus.Online } evs
    else run_events c evs
  | LoopEvent.msgErr :: _ => LoopOutcome.exited c (.error {})
  | LoopEvent.disconnected :: _ => LoopOutcome.exited c (.error {})
  | LoopEvent.pingTick sendOk :: evs =>
    if sendOk then run_events c evs else LoopOutcome.panicked
  | LoopEvent.shutdownTriggered :: _ => LoopOutcome.exited c (.ok ())

/-- `control_loop` from `control.rs`: acquire the delay-shutdown token (an
`Err` maps to `EngineError`), set the status to `Connecting`, connect
(failure maps to `EngineError`), send `Hello` — a send failure is only
logged, the loop proceeds — then run the `select!` loop. -/
def control_loop (control : ControlEngine) (a : ConnAttempt) : LoopOutcome :=
  if a.tokenOk then
    let control := { control with status := BotnodeStatus.Connecting }
    if a.connectOk then
      run_events control a.events
    else
      LoopOutcome.exited control (.error {})
  else
    LoopOutcome.exited control (.error {})

/-- Result of `ControlEngine::start` over a finite trace of connection
attempts: a panic propagated from `control_loop`, a run still blocked in the
loop, or a return of `Ok(())` after `backoffSeconds` one-second sleeps. -/
inductive StartOutcome where
  | panicked
  | blocked (c : ControlEngine)
  | returned (c : ControlEngine) (backoffSeconds : Nat)
deriving DecidableEq

/-- `ControlEngine::start` (`control.rs`): `while let Err(e) =
control_loop(..) \x7b log; sleep(1s) \x7d; Ok(())` — every failed attempt
adds one second of backoff and the loop retries with the next attempt;
an `Ok(())` from `control_loop` (shutdown observed) ends the loop. -/
def ControlEngine.start (c : ControlEngine) (backoffSeconds : Nat) :
    List ConnAttempt → StartOutcome
  | [] => StartOutcome.blocked c
  | a :: attempts =>
    match control_loop c a with
    | LoopOutcome.panicked => StartOutcome.panicked
    | LoopOutcome.running c2 => StartOutcome.blocked c2
    | LoopOutcome.exited c2 (.error _) =>
      ControlEngine.start c2 (backoffSeconds + 1) attempts
    | LoopOutcome.exited c2 (.ok _) => StartOutcome.returned c2 backoffSeconds

/-- Classification of one `select!` event trace by how the inner loop ends
on it. -/
inductive AttemptKind where
  | panicked
  | stillRunning
  | exitOk
  | exitErr
deriving DecidableEq

def classifyEvents : List LoopEvent → AttemptKind
  | [] => AttemptKind.stillRunning
  | LoopEvent.msgOk _ :: evs => classifyEvents evs
  | LoopEvent.msgErr :: _ => AttemptKind.exitErr
  | LoopEvent.disconnected :: _ => AttemptKind.exitErr
  | LoopEvent.pingTick sendOk :: evs =>
    if sendOk then classifyEvents evs else AttemptKind.panicked
  | LoopEvent.shutdownTriggered :: _ => AttemptKind.exitOk

def classifyAttempt (a : ConnAttempt) : AttemptKind :=
  if a.tokenOk then
    (if a.connectOk then classifyEvents a.events else AttemptKind.exitErr)
  else AttemptKind.exitErr

def LoopOutcome.kind : LoopOutcome → AttemptKind
  | LoopOutcome.panicked => AttemptKind.panicked
  | LoopOutcome.running _ => AttemptKind.stillRunning
  | LoopOutcome.exited _ (.ok _) => AttemptKind.exitOk
  | LoopOutcome.exited _ (.error _) => AttemptKind.exitErr

/-! ## Ring channel (`ring_channel` crate, used by `data_rx`)

Only the observable interface `data_rx` needs: a channel is a buffer plus
the liveness of its sender; `recv` yields the oldest buffered item, and
yields nothing when the buffer is empty (with the sender dropped this is the
permanent `Disconnected` state). -/

structure RingSender (α : Type) where
  capacity : Nat
deriving DecidableEq

structure RingReceiver (α : Type) where
  capacity : Nat
  buffer : List α
  senderAlive : Bool
deriving DecidableEq

/-- `ring_channel::ring_channel(n)`: a fresh empty channel of capacity `n`
with one live sender and one receiver. -/
def ring_channel (α : Type) (n : Nat) : RingSender α × RingReceiver α :=
  ({ capacity := n }, { capacity := n, buffer := [], senderAlive := true })

/-- `RingReceiver::recv`: the next item for this reader, or nothing when no
item is buffered. -/
def RingReceiver.recv {α : Type} (r : RingReceiver α) :
    Option (α × RingReceiver α) :=
  match r.buffer with
  | [] => none
  | x :: xs => some (x, { r with buffer := xs })

/-- `ControlEngine::data_rx` (`control.rs`): documented in the source as
returning a dummy receiver — a fresh `ring_channel` of capacity 1024 is
created inside the method, its sender is bound to `_data_tx` and dropped
when the method returns, and the receiver is returned.  The engine keeps no
reference to this channel. -/
def ControlEngine.data_rx (_c : ControlEngine) : RingReceiver Unit :=
  let pair := ring_channel Unit 1024
  { pair.2 with senderAlive := false }

/-- The binding produced by the last pair of the list carrying the given
price (later inserts replace earlier ones). -/
def assocLast : List (Nat × Nat) → Nat → Option Nat
  | [], _ => none
  | e :: rest, p =>
    match assocLast rest p with
    | some r => some r
    | none => if e.1 = p then some e.2 else none

/-! ## Ordering facts about price levels -/

instance (d : Bool) (l : List (Nat × Nat)) : Decidable (sortedLevels d l) :=
  inferInstanceAs (Decidable (l.Pairwise _))

theorem priceLt_trans {d : Bool} {p q r : Nat} (h1 : priceLt d p q = true)
    (h2 : priceLt d q r = true) : priceLt d p r = true := by
  cases d <;> simp [priceLt] at h1 h2 ⊢ <;> omega

theorem priceLt_ne {d : Bool} {p q : Nat} (h : priceLt d p q = true) :
    p ≠ q := by
  cases d <;> simp [priceLt] at h <;> omega

theorem priceLt_of_not {d : Bool} {p q : Nat} (h1 : ¬ priceLt d p q = true)
    (h2 : p ≠ q) : priceLt d q p = true := by
  cases d <;> simp [priceLt] at h1 ⊢ <;> omega

theorem priceLt_asymm {d : Bool} {p q : Nat} (h1 : priceLt d p q = true)
    (h2 : priceLt d q p = true) : False := by
  cases d <;> simp [priceLt] at h1 h2 <;> omega

theorem insertLevel_mem {d : Bool} {p s : Nat} :
    ∀ {l : List (Nat × Nat)} {x : Nat × Nat},
      x ∈ insertLevel d p s l → x = (p, s) ∨ x ∈ l := by
  intro l
  induction l with
  | nil =>
    intro x hx
    simp [insertLevel] at hx
    exact Or.inl hx
  | cons e rest ih =>
    intro x hx
    unfold insertLevel at hx
    split at hx
    · rw [List.mem_cons] at hx
      rcases hx with h | h
      · exact Or.inl h
      · exact Or.inr h
    · split at hx
      · rw [List.mem_cons] at hx
        rcases hx with h | h
        · exact Or.inl h
        · exact Or.inr (List.mem_cons_of_mem e h)
      · rw [List.mem_cons] at hx
        rcases hx with h | h
        · exact Or.inr (by simp [h])
        · rcases ih h with h2 | h2
          · exact Or.inl h2
          · exact Or.inr (List.mem_cons_of_mem e h2)

theorem insertLevel_sorted {d : Bool} {p s : Nat} :
    ∀ {l : List (Nat × Nat)}, sortedLevels d l →
      sortedLevels d (insertLevel d p s l) := by
  intro l
  induction l with
  | nil =>
    intro _
    simp [insertLevel, sortedLevels]
  | cons e rest ih =>
    intro h
    rw [sortedLevels, List.pairwise_cons] at h
    obtain ⟨he, hrest⟩ := h
    unfold insertLevel
    split
    · rename_i hlt
      refine List.Pairwise.cons ?_ (List.Pairwise.cons he hrest)
      intro b hb
      rcases List.mem_cons.mp hb with h2 | h2
      · subst h2; exact hlt
      · exact priceLt_trans hlt (he b h2)
    · split
      · rename_i hne heq
        refine List.Pairwise.cons ?_ hrest
        intro b hb
        have := he b hb
        simpa [heq] using this
      · rename_i hnlt hne
        refine List.Pairwise.cons ?_ (ih hrest)
        intro b hb
        rcases insertLevel_mem hb with h2 | h2
        · subst h2
          exact priceLt_of_not hnlt hne
        · exact he b h2

theorem lookupLevel_insert_self {d : Bool} {p s : Nat} :
    ∀ {l : List (Nat × Nat)}, lookupLevel (insertLevel d p s l) p = some s := by
  intro l
  induction l with
  | nil => simp [insertLevel, lookupLevel]
  | cons e rest ih =>
    unfold insertLevel
    split
    · simp [lookupLevel]
    · split
      · simp [lookupLevel]
      · rename_i hnlt hne
        have h1 : ¬ (e.1 = p) := fun h => hne h.symm
        simp only [lookupLevel]
        rw [if_neg h1]
        exact ih

theorem lookupLevel_insert_ne {d : Bool} {p s q : Nat} (hq : q ≠ p) :
    ∀ {l : List (Nat × Nat)},
      lookupLevel (insertLevel d p s l) q = lookupLevel l q := by
  have hpq : ¬ (p = q) := fun h => hq h.symm
  intro l
  induction l with
  | nil => simp [insertLevel, lookupLevel, hpq]
  | cons e rest ih =>
    unfold insertLevel
    split
    · simp [lookupLevel, hpq]
    · split
      · rename_i hnlt heq
        simp only [lookupLevel]
        rw [← heq]
        simp [hpq]
      · simp only [lookupLevel]
        split
        · rfl
        · exact ih

theorem removeLevel_cons_drop {p : Nat} {e : Nat × Nat}
    {rest : List (Nat × Nat)} (he : e.1 = p) :
    removeLevel p (e :: rest) = removeLevel p rest := by
  simp [removeLevel, List.filter_cons, he]

theorem removeLevel_cons_keep {p : Nat} {e : Nat × Nat}
    {rest : List (Nat × Nat)} (he : ¬ (e.1 = p)) :
    removeLevel p (e :: rest) = e :: removeLevel p rest := by
  simp [removeLevel, List.filter_cons, he]

theorem lookupLevel_remove_self {p : Nat} {l : List (Nat × Nat)} :
    lookupLevel (removeLevel p l) p = none := by
  induction l with
  | nil => simp [removeLevel, lookupLevel]
  | cons e rest ih =>
    by_cases he : e.1 = p
    · rw [removeLevel_cons_drop he]
      exact ih
    · rw [removeLevel_cons_keep he]
      simp only [lookupLevel]
      rw [if_neg he]
      exact ih

theorem lookupLevel_remove_ne {p q : Nat} (hq : q ≠ p) :
    ∀ {l : List (Nat × Nat)},
      lookupLevel (removeLevel p l) q = lookupLevel l q := by
  intro l
  induction l with
  | nil => simp [removeLevel, lookupLevel]
  | cons e rest ih =>
    by_cases he : e.1 = p
    · rw [removeLevel_cons_drop he, ih]
      have h1 : ¬ (e.1 = q) := by
        rw [he]
        exact fun h => hq h.symm
      simp [lookupLevel, h1]
    · rw [removeLevel_cons_keep he]
      simp only [lookupLevel]
      split
      · rfl
      · exact ih

theorem removeLevel_sorted {d : Bool} {p : Nat} {l : List (Nat × Nat)}
    (h : sortedLevels d l) : sortedLevels d (removeLevel p l) := by
  exact List.Pairwise.sublist (List.filter_sublist l) h

theorem applyLevel_sorted {d : Bool} {e : Nat × Nat} {l : List (Nat × Nat)}
    (h : sortedLevels d l) : sortedLevels d (applyLevel d l e) := by
  unfold applyLevel
  split
  · exact removeLevel_sorted h
  · exact insertLevel_sorted h

theorem foldl_applyLevel_sorted {d : Bool} :
    ∀ {delta l : List (Nat × Nat)}, sortedLevels d l →
      sortedLevels d (delta.foldl (applyLevel d) l) := by
  intro delta
  induction delta with
  | nil => intro l h; exact h
  | cons e rest ih =>
    intro l h
    exact ih (applyLevel_sorted h)

theorem lookupLevel_applyLevel_self {d : Bool} {e : Nat × Nat}
    {l : List (Nat × Nat)} :
    lookupLevel (applyLevel d l e) e.1
      = (if e.2 = 0 then none else some e.2) := by
  unfold applyLevel
  by_cases h : e.2 = 0
  · rw [if_pos h, if_pos h]
    exact lookupLevel_remove_self
  · rw [if_neg h, if_neg h]
    exact lookupLevel_insert_self

theorem lookupLevel_applyLevel_ne {d : Bool} {e : Nat × Nat} {q : Nat}
    {l : List (Nat × Nat)} (hq : q ≠ e.1) :
    lookupLevel (applyLevel d l e) q = lookupLevel l q := by
  unfold applyLevel
  split
  · exact lookupLevel_remove_ne hq
  · exact lookupLevel_insert_ne hq

theorem foldl_applyLevel_lookup_not_mem {d : Bool} :
    ∀ {delta l : List (Nat × Nat)} {q : Nat},
      q ∉ delta.map Prod.fst →
      lookupLevel (delta.foldl (applyLevel d) l) q = lookupLevel l q := by
  intro delta
  induction delta with
  | nil => intro l q _; rfl
  | cons e rest ih =>
    intro l q hq
    rw [List.map_cons, List.mem_cons] at hq
    push_neg at hq
    rw [List.foldl_cons, ih hq.2, lookupLevel_applyLevel_ne hq.1]

theorem foldl_applyLevel_lookup_mem {d : Bool} :
    ∀ {delta l : List (Nat × Nat)} {p s : Nat},
      (delta.map Prod.fst).Nodup → (p, s) ∈ delta →
      lookupLevel (delta.foldl (applyLevel d) l) p
        = (if s = 0 then none else some s) := by
  intro delta
  induction delta with
  | nil => intro l p s _ h; cases h
  | cons e rest ih =>
    intro l p s hnd hmem
    rw [List.map_cons, List.nodup_cons] at hnd
    rw [List.mem_cons] at hmem
    rcases hmem with h | h
    · have h2 : e = (p, s) := h.symm
      subst h2
      have hnotin : p ∉ rest.map Prod.fst := by simpa using hnd.1
      rw [List.foldl_cons, foldl_applyLevel_lookup_not_mem hnotin]
      simpa using
        lookupLevel_applyLevel_self (d := d) (e := (p, s)) (l := l)
    · rw [List.foldl_cons]
      exact ih hnd.2 h

/-! ## Snapshot construction from unsorted pairs -/

theorem foldl_insertLevel_sorted {d : Bool} :
    ∀ {pairs acc : List (Nat × Nat)}, sortedLevels d acc →
      sortedLevels d
        (pairs.foldl (fun acc e => insertLevel d e.1 e.2 acc) acc) := by
  intro pairs
  induction pairs with
  | nil => intro acc h; exact h
  | cons e rest ih =>
    intro acc h
    exact ih (insertLevel_sorted h)

theorem from_tuples_vec_unsorted_sorted {d : Bool}
    {pairs : List (Nat × Nat)} :
    sortedLevels d (PriceLevelsVec.from_tuples_vec_unsorted d pairs).levels := by
  unfold PriceLevelsVec.from_tuples_vec_unsorted
  exact foldl_insertLevel_sorted (by simp [sortedLevels])

theorem assocLast_cons {e : Nat × Nat} {tail : List (Nat × Nat)} {p : Nat} :
    assocLast (e :: tail) p
      = (match assocLast tail p with
         | some r => some r
         | none => if e.1 = p then some e.2 else none) := rfl

theorem lookupLevel_foldl_insertLevel {d : Bool} :
    ∀ {pairs acc : List (Nat × Nat)} {p : Nat},
      lookupLevel (pairs.foldl (fun acc e => insertLevel d e.1 e.2 acc) acc) p
        = (match assocLast pairs p with
           | some r => some r
           | none => lookupLevel acc p) := by
  intro pairs
  induction pairs with
  | nil => intro acc p; rfl
  | cons e rest ih =>
    intro acc p
    rw [List.foldl_cons, ih, assocLast_cons]
    cases h : assocLast rest p with
    | some r => rfl
    | none =>
      show lookupLevel (insertLevel d e.1 e.2 acc) p
        = (match (if e.1 = p then some e.2 else none) with
           | some r => some r
           | none => lookupLevel acc p)
      by_cases hp : e.1 = p
      · rw [if_pos hp, hp, lookupLevel_insert_self]
      · rw [if_neg hp]
        exact lookupLevel_insert_ne (fun hh => hp hh.symm)

theorem assocLast_eq_some_iff_mem :
    ∀ {l : List (Nat × Nat)} {p s : Nat}, (l.map Prod.fst).Nodup →
      (assocLast l p = some s ↔ (p, s) ∈ l) := by
  intro l
  induction l with
  | nil => intro p s _; simp [assocLast]
  | cons e rest ih =>
    intro p s hnd
    rw [List.map_cons, List.nodup_cons] at hnd
    rw [assocLast_cons]
    cases h : assocLast rest p with
    | some r =>
      show some r = some s ↔ (p, s) ∈ e :: rest
      have hr : (p, r) ∈ rest := (ih hnd.2).mp h
      have hpr : p ∈ rest.map Prod.fst := List.mem_map_of_mem Prod.fst hr
      have hep : ¬ (e.1 = p) := fun hh => hnd.1 (by rw [hh]; exact hpr)
      constructor
      · intro hh
        have hrs : r = s := by injection hh
        subst hrs
        exact List.mem_cons_of_mem e hr
      · intro hh
        rw [List.mem_cons] at hh
        rcases hh with hh | hh
        · exact absurd (congrArg Prod.fst hh).symm hep
        · have h2 := (ih hnd.2).mpr hh
          rw [h] at h2
          exact h2
    | none =>
      show (if e.1 = p then some e.2 else none) = some s ↔ (p, s) ∈ e :: rest
      have hrest : ∀ t, (p, t) ∉ rest := by
        intro t ht
        have h2 := (ih hnd.2).mpr ht
        rw [h] at h2
        cases h2
      by_cases hep : e.1 = p
      · rw [if_pos hep]
        constructor
        · intro hh
          have hes : e.2 = s := by injection hh
          rw [List.mem_cons]
          left
          rw [← hep, ← hes]
        · intro hh
          rw [List.mem_cons] at hh
          rcases hh with hh | hh
          · rw [(congrArg Prod.snd hh).symm]
          · exact absurd hh (hrest s)
      · rw [if_neg hep]
        constructor
        · intro hh
          cases hh
        · intro hh
          rw [List.mem_cons] at hh
          rcases hh with hh | hh
          · exact absurd (congrArg Prod.fst hh).symm hep
          · exact absurd hh (hrest s)

/-! ## Sorted level lists are determined by their lookups -/

theorem sortedLevels_keys_nodup {d : Bool} {l : List (Nat × Nat)}
    (h : sortedLevels d l) : (l.map Prod.fst).Nodup := by
  rw [List.Nodup, List.pairwise_map]
  exact h.imp (fun hab => priceLt_ne hab)

theorem mem_iff_lookupLevel {d : Bool} {l : List (Nat × Nat)}
    (h : sortedLevels d l) {p s : Nat} :
    (p, s) ∈ l ↔ lookupLevel l p = some s := by
  induction l with
  | nil => simp [lookupLevel]
  | cons e rest ih =>
    rw [sortedLevels, List.pairwise_cons] at h
    constructor
    · intro hm
      rw [List.mem_cons] at hm
      rcases hm with hm | hm
      · simp [lookupLevel, ← hm]
      · have hep : ¬ (e.1 = p) := by
          intro hh
          have := priceLt_ne (h.1 _ hm)
          simp [hh] at this
        simp only [lookupLevel]
        rw [if_neg hep]
        exact (ih h.2).mp hm
    · intro hl
      simp only [lookupLevel] at hl
      split at hl
      · rename_i hep
        have hes : e.2 = s := by injection hl
        rw [List.mem_cons]
        left
        rw [← hep, ← hes]
      · exact List.mem_cons_of_mem e ((ih h.2).mpr hl)

theorem sortedLevels_nodup {d : Bool} {l : List (Nat × Nat)}
    (h : sortedLevels d l) : l.Nodup :=
  List.Nodup.of_map Prod.fst (sortedLevels_keys_nodup h)

theorem sortedLevels_ext {d : Bool} {l1 l2 : List (Nat × Nat)}
    (h1 : sortedLevels d l1) (h2 : sortedLevels d l2)
    (h : ∀ p, lookupLevel l1 p = lookupLevel l2 p) : l1 = l2 := by
  have hmem : ∀ x : Nat × Nat, x ∈ l1 ↔ x ∈ l2 := by
    intro x
    rw [mem_iff_lookupLevel h1, mem_iff_lookupLevel h2, h x.1]
  have hperm : l1.Perm l2 :=
    (List.perm_ext_iff_of_nodup (sortedLevels_nodup h1)
      (sortedLevels_nodup h2)).mpr hmem
  haveI : IsAntisymm (Nat × Nat)
      (fun a b => priceLt d a.1 b.1 = true) :=
    ⟨fun a b ha hb => (priceLt_asymm ha hb).elim⟩
  exact List.eq_of_perm_of_sorted hperm h1 h2

/-! ## Characterisation of the snapshot build -/

theorem from_tuples_vec_unsorted_lookup {d : Bool} {pairs : List (Nat × Nat)}
    (hnd : (pairs.map Prod.fst).Nodup) {p s : Nat} :
    lookupLevel (PriceLevelsVec.from_tuples_vec_unsorted d pairs).levels p
        = some s
      ↔ ((p, s) ∈ pairs ∧ s ≠ 0) := by
  unfold PriceLevelsVec.from_tuples_vec_unsorted
  rw [lookupLevel_foldl_insertLevel]
  have hndf : ((pairs.filter (fun e => e.2 ≠ 0)).map Prod.fst).Nodup :=
    List.Nodup.sublist
      (List.Sublist.map Prod.fst (List.filter_sublist pairs)) hnd
  cases h : assocLast (pairs.filter (fun e => e.2 ≠ 0)) p with
  | some r =>
    show some r = some s ↔ _
    have hr := (assocLast_eq_some_iff_mem hndf).mp h
    rw [List.mem_filter] at hr
    constructor
    · intro hh
      have hrs : r = s := by injection hh
      subst hrs
      exact ⟨hr.1, by simpa using hr.2⟩
    · intro hh
      have : (p, s) ∈ pairs.filter (fun e => e.2 ≠ 0) := by
        rw [List.mem_filter]
        exact ⟨hh.1, by simpa using hh.2⟩
      have := (assocLast_eq_some_iff_mem hndf).mpr this
      rw [h] at this
      exact this
  | none =>
    show (lookupLevel [] p = some s) ↔ _
    simp only [lookupLevel]
    constructor
    · intro hh
      cases hh
    · intro hh
      have hm : (p, s) ∈ pairs.filter (fun e => e.2 ≠ 0) := by
        rw [List.mem_filter]
        exact ⟨hh.1, by simpa using hh.2⟩
      have := (assocLast_eq_some_iff_mem hndf).mpr hm
      rw [h] at this
      cases this

theorem option_eq_of_some_iff {o1 o2 : Option Nat}
    (h : ∀ s, o1 = some s ↔ o2 = some s) : o1 = o2 := by
  cases h1 : o1 with
  | some s => exact ((h s).mp h1).symm
  | none =>
    cases h2 : o2 with
    | some s =>
      have := (h s).mpr h2
      rw [h1] at this
      cases this
    | none => rfl

/-- Building a snapshot side from any permutation of the same
`(price, size)` pairs (with pairwise-distinct prices) yields the same
normalised level list. -/
theorem from_tuples_vec_unsorted_perm {d : Bool}
    {pairs pairs2 : List (Nat × Nat)} (hperm : pairs2.Perm pairs)
    (hnd : (pairs.map Prod.fst).Nodup) :
    PriceLevelsVec.from_tuples_vec_unsorted d pairs2
      = PriceLevelsVec.from_tuples_vec_unsorted d pairs := by
  have hnd2 : (pairs2.map Prod.fst).Nodup :=
    (List.Perm.nodup_iff (List.Perm.map Prod.fst hperm)).mpr hnd
  have hlook : ∀ p,
      lookupLevel (PriceLevelsVec.from_tuples_vec_unsorted d pairs2).levels p
        = lookupLevel
            (PriceLevelsVec.from_tuples_vec_unsorted d pairs).levels p := by
    intro p
    apply option_eq_of_some_iff
    intro s
    rw [from_tuples_vec_unsorted_lookup hnd2,
      from_tuples_vec_unsorted_lookup hnd]
    constructor
    · intro hh
      exact ⟨(List.Perm.mem_iff hperm).mp hh.1, hh.2⟩
    · intro hh
      exact ⟨(List.Perm.mem_iff hperm).mpr hh.1, hh.2⟩
  have := sortedLevels_ext
    (@from_tuples_vec_unsorted_sorted d pairs2)
    (@from_tuples_vec_unsorted_sorted d pairs) hlook
  cases hp2 : PriceLevelsVec.from_tuples_vec_unsorted d pairs2 with
  | mk levels2 =>
    cases hp : PriceLevelsVec.from_tuples_vec_unsorted d pairs with
    | mk levels =>
      rw [hp2, hp] at this
      simp only at this
      rw [this]

/-! ## Table lemmas -/

theorem tableGet_tableInsert_self {t : Table} {s : String}
    {ob : PlainOrderbook} : tableGet (tableInsert t s ob) s = some ob := by
  induction t with
  | nil => simp [tableInsert, tableGet]
  | cons e rest ih =>
    unfold tableInsert
    split
    · simp [tableGet]
    · rename_i hne
      simp only [tableGet]
      rw [if_neg hne]
      exact ih

theorem tableGet_tableInsert_ne {t : Table} {s q : String}
    (hq : q ≠ s) {ob : PlainOrderbook} :
    tableGet (tableInsert t s ob) q = tableGet t q := by
  have hsq : ¬ (s = q) := fun h => hq h.symm
  induction t with
  | nil => simp [tableInsert, tableGet, hsq]
  | cons e rest ih =>
    unfold tableInsert
    split
    · rename_i hes
      simp only [tableGet]
      rw [hes]
      simp [hsq]
    · simp only [tableGet]
      split
      · rfl
      · exact ih

/-! ## Claim theorems -/

/-- C1: for every inbound streaming order-book message with action
`"partial"` for symbol `S`, `process_ws_msg` discards any pre-existing table
entry for `S` and installs a freshly built entry whose bids are sorted
descending by price and asks ascending by price, regardless of the order of
the `(price, size)` pairs in the message. -/
theorem C1_partial_installs_fresh_sorted_book (now : Nat) (msg : ws.WsMsg)
    (ob : ws.OrderbookMsg) (s : String) (table : Table)
    (hdata : msg.data = ws.Data.Orderbook ob) (hact : ob.action = "partial")
    (hmkt : msg.market = some s) :
    ∃ fresh : PlainOrderbook,
      fresh = { bids := PriceLevelsVec.from_tuples_vec_unsorted true ob.bids
                asks := PriceLevelsVec.from_tuples_vec_unsorted false ob.asks
                time := ob.time }
      ∧ process_ws_msg now msg table
          = some (.ok (some { type := .orderbookUpdate s fresh
                              timestamp := now }),
                  tableInsert table s fresh)
      ∧ tableGet (tableInsert table s fresh) s = some fresh
      ∧ sortedLevels true fresh.bids.levels
      ∧ sortedLevels false fresh.asks.levels
      ∧ (∀ bids2 : List (Nat × Nat), bids2.Perm ob.bids →
          (ob.bids.map Prod.fst).Nodup →
          PriceLevelsVec.from_tuples_vec_unsorted true bids2
            = PriceLevelsVec.from_tuples_vec_unsorted true ob.bids)
      ∧ (∀ asks2 : List (Nat × Nat), asks2.Perm ob.asks →
          (ob.asks.map Prod.fst).Nodup →
          PriceLevelsVec.from_tuples_vec_unsorted false asks2
            = PriceLevelsVec.from_tuples_vec_unsorted false ob.asks) := by
  refine ⟨_, rfl, ?_, tableGet_tableInsert_self,
    from_tuples_vec_unsorted_sorted, from_tuples_vec_unsorted_sorted,
    fun _ hp hn => from_tuples_vec_unsorted_perm hp hn,
    fun _ hp hn => from_tuples_vec_unsorted_perm hp hn⟩
  obtain ⟨ch, mk, dat, ty⟩ := msg
  simp only at hdata hmkt
  subst hdata hmkt
  simp [process_ws_msg, hact]

/-- Witness for C1: the spec's own example — bids given unsorted as
`[(99,2),(100,1)]`, asks `[(101,1)]`. -/
theorem C1_witness :
    ∃ fresh : PlainOrderbook,
      fresh = { bids := PriceLevelsVec.from_tuples_vec_unsorted true
                  [(99, 2), (100, 1)]
                asks := PriceLevelsVec.from_tuples_vec_unsorted false
                  [(101, 1)]
                time := 3 }
      ∧ process_ws_msg 7
          { channel := "orderbook"
            market := some "BTC/USD"
            data := ws.Data.Orderbook
              { time := 3, bids := [(99, 2), (100, 1)]
                asks := [(101, 1)], action := "partial" }
            type := none } []
          = some (.ok (some { type := .orderbookUpdate "BTC/USD" fresh
                              timestamp := 7 }),
                  tableInsert [] "BTC/USD" fresh)
      ∧ tableGet (tableInsert [] "BTC/USD" fresh) "BTC/USD" = some fresh
      ∧ sortedLevels true fresh.bids.levels
      ∧ sortedLevels false fresh.asks.levels
      ∧ (∀ bids2 : List (Nat × Nat), bids2.Perm [(99, 2), (100, 1)] →
          (([(99, 2), (100, 1)] : List (Nat × Nat)).map Prod.fst).Nodup →
          PriceLevelsVec.from_tuples_vec_unsorted true bids2
            = PriceLevelsVec.from_tuples_vec_unsorted true
                [(99, 2), (100, 1)])
      ∧ (∀ asks2 : List (Nat × Nat), asks2.Perm [(101, 1)] →
          (([(101, 1)] : List (Nat × Nat)).map Prod.fst).Nodup →
          PriceLevelsVec.from_tuples_vec_unsorted false asks2
            = PriceLevelsVec.from_tuples_vec_unsorted false [(101, 1)]) :=
  C1_partial_installs_fresh_sorted_book 7
    { channel := "orderbook"
      market := some "BTC/USD"
      data := ws.Data.Orderbook
        { time := 3, bids := [(99, 2), (100, 1)]
          asks := [(101, 1)], action := "partial" }
      type := none }
    { time := 3, bids := [(99, 2), (100, 1)]
      asks := [(101, 1)], action := "partial" }
    "BTC/USD" [] rfl rfl rfl

/-- C2: for every inbound order-book message with action `"update"` for a
symbol `S` already present in the table, `process_ws_msg` upserts each
`(price, size)` pair of the delta into the entry — a positive size
replaces/inserts the level, size `0` removes it — leaves every level not
mentioned in the delta untouched, keeps the bid-descending/ask-ascending
ordering, and sets the entry's timestamp to the delta's. -/
theorem C2_update_merges_delta (now : Nat) (msg : ws.WsMsg)
    (ob : ws.OrderbookMsg) (s : String) (table : Table)
    (old : PlainOrderbook)
    (hdata : msg.data = ws.Data.Orderbook ob) (hact : ob.action = "update")
    (hmkt : msg.market = some s) (hold : tableGet table s = some old)
    (hsb : sortedLevels true old.bids.levels)
    (hsa : sortedLevels false old.asks.levels)
    (hndb : (ob.bids.map Prod.fst).Nodup)
    (hnda : (ob.asks.map Prod.fst).Nodup) :
    ∃ merged : PlainOrderbook,
      merged = old.update_with_timestamp
          (PriceLevelsVec.from_tuples_vec ob.bids)
          (PriceLevelsVec.from_tuples_vec ob.asks) ob.time
      ∧ process_ws_msg now msg table
          = some (.ok (some { type := .orderbookUpdate s merged
                              timestamp := now }),
                  tableInsert table s merged)
      ∧ merged.time = ob.time
      ∧ sortedLevels true merged.bids.levels
      ∧ sortedLevels false merged.asks.levels
      ∧ (∀ p sz : Nat, (p, sz) ∈ ob.bids →
          (sz ≠ 0 → lookupLevel merged.bids.levels p = some sz)
          ∧ (sz = 0 → lookupLevel merged.bids.levels p = none))
      ∧ (∀ p : Nat, p ∉ ob.bids.map Prod.fst →
          lookupLevel merged.bids.levels p = lookupLevel old.bids.levels p)
      ∧ (∀ p sz : Nat, (p, sz) ∈ ob.asks →
          (sz ≠ 0 → lookupLevel merged.asks.levels p = some sz)
          ∧ (sz = 0 → lookupLevel merged.asks.levels p = none))
      ∧ (∀ p : Nat, p ∉ ob.asks.map Prod.fst →
          lookupLevel merged.asks.levels p = lookupLevel old.asks.levels p)
    := by
  have hb : (old.update_with_timestamp
      (PriceLevelsVec.from_tuples_vec ob.bids)
      (PriceLevelsVec.from_tuples_vec ob.asks) ob.time).bids.levels
      = ob.bids.foldl (applyLevel true) old.bids.levels := rfl
  have ha : (old.update_with_timestamp
      (PriceLevelsVec.from_tuples_vec ob.bids)
      (PriceLevelsVec.from_tuples_vec ob.asks) ob.time).asks.levels
      = ob.asks.foldl (applyLevel false) old.asks.levels := rfl
  refine ⟨_, rfl, ?_, rfl, ?_, ?_, ?_, ?_, ?_, ?_⟩
  · obtain ⟨ch, mk, dat, ty⟩ := msg
    simp only at hdata hmkt
    subst hdata hmkt
    simp [process_ws_msg, hact, hold]
  · rw [hb]
    exact foldl_applyLevel_sorted hsb
  · rw [ha]
    exact foldl_applyLevel_sorted hsa
  · intro p sz hm
    constructor
    · intro hsz
      have h2 := foldl_applyLevel_lookup_mem (d := true)
        (l := old.bids.levels) hndb hm
      rw [if_neg hsz] at h2
      rw [hb]
      exact h2
    · intro hsz
      have h2 := foldl_applyLevel_lookup_mem (d := true)
        (l := old.bids.levels) hndb hm
      rw [if_pos hsz] at h2
      rw [hb]
      exact h2
  · intro p hp
    rw [hb]
    exact foldl_applyLevel_lookup_not_mem hp
  · intro p sz hm
    constructor
    · intro hsz
      have h2 := foldl_applyLevel_lookup_mem (d := false)
        (l := old.asks.levels) hnda hm
      rw [if_neg hsz] at h2
      rw [ha]
      exact h2
    · intro hsz
      have h2 := foldl_applyLevel_lookup_mem (d := false)
        (l := old.asks.levels) hnda hm
      rw [if_pos hsz] at h2
      rw [ha]
      exact h2
  · intro p hp
    rw [ha]
    exact foldl_applyLevel_lookup_not_mem hp

/-- Witness for C2: the spec's own example — starting from bids
`[(100,1),(99,2)]`, an update with bids `[(100,0),(98,5)]` removes level 100,
inserts 98 and leaves 99 untouched. -/
theorem C2_witness :
    ∃ merged : PlainOrderbook,
      merged = PlainOrderbook.update_with_timestamp
          { bids := ⟨[(100, 1), (99, 2)]⟩, asks := ⟨[(101, 1)]⟩, time := 3 }
          (PriceLevelsVec.from_tuples_vec [(100, 0), (98, 5)])
          (PriceLevelsVec.from_tuples_vec []) 4
      ∧ process_ws_msg 8
          { channel := "orderbook"
            market := some "BTC/USD"
            data := ws.Data.Orderbook
              { time := 4, bids := [(100, 0), (98, 5)]
                asks := [], action := "update" }
            type := none }
          [("BTC/USD",
            { bids := ⟨[(100, 1), (99, 2)]⟩, asks := ⟨[(101, 1)]⟩
              time := 3 })]
          = some (.ok (some { type := .orderbookUpdate "BTC/USD" merged
                              timestamp := 8 }),
                  tableInsert
                    [("BTC/USD",
                      { bids := ⟨[(100, 1), (99, 2)]⟩
                        asks := ⟨[(101, 1)]⟩, time := 3 })]
                    "BTC/USD" merged)
      ∧ merged.time = 4
      ∧ sortedLevels true merged.bids.levels
      ∧ sortedLevels false merged.asks.levels
      ∧ (∀ p sz : Nat, (p, sz) ∈ ([(100, 0), (98, 5)] : List (Nat × Nat)) →
          (sz ≠ 0 → lookupLevel merged.bids.levels p = some sz)
          ∧ (sz = 0 → lookupLevel merged.bids.levels p = none))
      ∧ (∀ p : Nat,
          p ∉ ([(100, 0), (98, 5)] : List (Nat × Nat)).map Prod.fst →
          lookupLevel merged.bids.levels p
            = lookupLevel [(100, 1), (99, 2)] p)
      ∧ (∀ p sz : Nat, (p, sz) ∈ ([] : List (Nat × Nat)) →
          (sz ≠ 0 → lookupLevel merged.asks.levels p = some sz)
          ∧ (sz = 0 → lookupLevel merged.asks.levels p = none))
      ∧ (∀ p : Nat, p ∉ ([] : List (Nat × Nat)).map Prod.fst →
          lookupLevel merged.asks.levels p = lookupLevel [(101, 1)] p) :=
  C2_update_merges_delta 8
    { channel := "orderbook"
      market := some "BTC/USD"
      data := ws.Data.Orderbook
        { time := 4, bids := [(100, 0), (98, 5)]
          asks := [], action := "update" }
      type := none }
    { time := 4, bids := [(100, 0), (98, 5)], asks := [], action := "update" }
    "BTC/USD"
    [("BTC/USD",
      { bids := ⟨[(100, 1), (99, 2)]⟩, asks := ⟨[(101, 1)]⟩, time := 3 })]
    { bids := ⟨[(100, 1), (99, 2)]⟩, asks := ⟨[(101, 1)]⟩, time := 3 }
    rfl rfl rfl rfl (by decide) (by decide) (by decide) (by decide)

/-- C3: for every inbound order-book message whose action is neither
`"partial"` nor `"update"`, `process_ws_msg` returns a `MarketDataError`
wrapping `UnknownVariantError` carrying the action string and returns the
order-book table unchanged. -/
theorem C3_unknown_action_rejected (now : Nat) (msg : ws.WsMsg)
    (ob : ws.OrderbookMsg) (table : Table)
    (hdata : msg.data = ws.Data.Orderbook ob)
    (hact1 : ob.action ≠ "partial") (hact2 : ob.action ≠ "update") :
    process_ws_msg now msg table
      = some (.error (MarketDataError.unknownVariant ob.action), table) := by
  obtain ⟨ch, mk, dat, ty⟩ := msg
  simp only at hdata
  subst hdata
  simp [process_ws_msg, hact1, hact2]

/-- Witness for C3: an `update`-shaped message with `action="resync"`
produces the unknown-variant error and leaves the existing table entry
untouched. -/
theorem C3_witness :
    process_ws_msg 9
      { channel := "orderbook"
        market := some "BTC/USD"
        data := ws.Data.Orderbook
          { time := 5, bids := [(100, 0)], asks := [], action := "resync" }
        type := none }
      [("BTC/USD",
        { bids := ⟨[(100, 1), (99, 2)]⟩, asks := ⟨[(101, 1)]⟩, time := 3 })]
      = some (.error (MarketDataError.unknownVariant "resync"),
              [("BTC/USD",
                { bids := ⟨[(100, 1), (99, 2)]⟩, asks := ⟨[(101, 1)]⟩
                  time := 3 })]) :=
  C3_unknown_action_rejected 9
    { channel := "orderbook"
      market := some "BTC/USD"
      data := ws.Data.Orderbook
        { time := 5, bids := [(100, 0)], asks := [], action := "resync" }
      type := none }
    { time := 5, bids := [(100, 0)], asks := [], action := "resync" }
    [("BTC/USD",
      { bids := ⟨[(100, 1), (99, 2)]⟩, asks := ⟨[(101, 1)]⟩, time := 3 })]
    rfl (by decide) (by decide)

/-- C4 (code bug): the claim says `process_ws_msg` never panics, but the
source unwraps `markets.get_mut(..)` on the `"update"` path and
`ws_msg.market` on the trades path — an `"update"` delta for a symbol with
no table entry, or a trades message without a market field, panics
(modelled as the `none` result). -/
theorem C4_process_ws_msg_panics :
    process_ws_msg 0
        { channel := "orderbook"
          market := some "BTC/USD"
          data := ws.Data.Orderbook
            { time := 1, bids := [(100, 2)], asks := [], action := "update" }
          type := none } []
      = none
    ∧ process_ws_msg 0
        { channel := "trades"
          market := none
          data := ws.Data.Trades []
          type := none } []
      = none := by
  constructor
  · rfl
  · rfl

theorem except_toOption_eq_some {ε α : Type} (e : Except ε α) (a : α) :
    e.toOption = some a ↔ e = .ok a := by
  cases e <;> simp [Except.toOption]

/-- C7: a `"spot"` record with both currencies maps to a `Spot{base, quote}`
market with name, native symbol and increments copied from the record; any
unsupported type (e.g. `"swap"`) fails with a descriptive error; a `"spot"`
record missing its base or quote currency also fails with an error. -/
theorem C7_market_translation :
    (∀ (m : rest.MarketInfo) (base quote : String),
      m.type = "spot" → m.base_currency = some base →
      m.quote_currency = some quote →
      Market.try_from m
        = .ok { name := m.name
                native_symbol := m.name
                size_increment := m.size_increment
                price_increment := m.price_increment
                type := MarketType.Spot base quote })
    ∧ (∀ m : rest.MarketInfo, m.type ≠ "spot" → m.type ≠ "future" →
        Market.try_from m = .error ("Invalid market type: " ++ m.type))
    ∧ (∀ m : rest.MarketInfo, m.type = "spot" →
        m.base_currency = none ∨ m.quote_currency = none →
        ∃ e : String, Market.try_from m = .error e) := by
  refine ⟨?_, ?_, ?_⟩
  · intro m base quote ht hb hq
    simp [Market.try_from, ht, hb, hq]
  · intro m ht1 ht2
    simp [Market.try_from, ht1, ht2]
  · intro m ht hbq
    rcases hbq with hb | hq
    · exact ⟨"Missing base currency", by simp [Market.try_from, ht, hb]⟩
    · cases hb : m.base_currency with
      | none => exact ⟨"Missing base currency",
          by simp [Market.try_from, ht, hb]⟩
      | some base => exact ⟨"Missing quote currency",
          by simp [Market.try_from, ht, hb, hq]⟩

/-- Witness for C7: the spec's example records — a spot BTC/USD record, a
`"swap"` record, and a spot record missing its base currency. -/
theorem C7_witness :
    Market.try_from
        { name := "BTC/USD", base_currency := some "BTC"
          quote_currency := some "USD", min_provide_size := 1
          type := "spot", underlying := none, enabled := true
          post_only := none, price_increment := 1, size_increment := 1
          restricted := none }
      = .ok { name := "BTC/USD", native_symbol := "BTC/USD"
              size_increment := 1, price_increment := 1
              type := MarketType.Spot "BTC" "USD" }
    ∧ Market.try_from
        { name := "BTC-PERP", base_currency := none
          quote_currency := none, min_provide_size := 1
          type := "swap", underlying := some "BTC", enabled := true
          post_only := none, price_increment := 1, size_increment := 1
          restricted := none }
      = .error ("Invalid market type: " ++ "swap")
    ∧ (∃ e : String,
        Market.try_from
          { name := "XXX/USD", base_currency := none
            quote_currency := some "USD", min_provide_size := 1
            type := "spot", underlying := none, enabled := true
            post_only := none, price_increment := 1, size_increment := 1
            restricted := none }
        = .error e) :=
  ⟨C7_market_translation.1
      { name := "BTC/USD", base_currency := some "BTC"
        quote_currency := some "USD", min_provide_size := 1
        type := "spot", underlying := none, enabled := true
        post_only := none, price_increment := 1, size_increment := 1
        restricted := none } "BTC" "USD" rfl rfl rfl,
    C7_market_translation.2.1
      { name := "BTC-PERP", base_currency := none
        quote_currency := none, min_provide_size := 1
        type := "swap", underlying := some "BTC", enabled := true
        post_only := none, price_increment := 1, size_increment := 1
        restricted := none } (by decide) (by decide),
    C7_market_translation.2.2
      { name := "XXX/USD", base_currency := none
        quote_currency := some "USD", min_provide_size := 1
        type := "spot", underlying := none, enabled := true
        post_only := none, price_increment := 1, size_increment := 1
        restricted := none } rfl (Or.inl rfl)⟩

/-- C8: for every inbound trades message (with its market field present),
each wire trade is translated 1:1; a record failing required-field parsing
is dropped individually while the rest are returned in a `Trades` event —
one bad record never fails the whole batch. -/
theorem C8_trades_filtered_individually (now : Nat) (msg : ws.WsMsg)
    (ts : List ws.Trade) (s : String) (table : Table)
    (hdata : msg.data = ws.Data.Trades ts) (hmkt : msg.market = some s) :
    ∃ parsed : List Trade,
      parsed = ts.filterMap (fun t => (Trade.try_from now t).toOption)
      ∧ process_ws_msg now msg table
          = some (.ok (some { type := .trades s parsed, timestamp := now }),
                  table)
      ∧ (∀ dt : Trade,
          dt ∈ parsed ↔ ∃ t ∈ ts, Trade.try_from now t = .ok dt) := by
  refine ⟨_, rfl, ?_, ?_⟩
  · obtain ⟨ch, mk, dat, ty⟩ := msg
    simp only at hdata hmkt
    subst hdata hmkt
    simp [process_ws_msg]
  · intro dt
    rw [List.mem_filterMap]
    constructor
    · intro hh
      obtain ⟨t, ht, he⟩ := hh
      exact ⟨t, ht, (except_toOption_eq_some _ _).mp he⟩
    · intro hh
      obtain ⟨t, ht, he⟩ := hh
      exact ⟨t, ht, (except_toOption_eq_some _ _).mpr he⟩

/-- Witness for C8: a batch with one well-formed trade and one with a
malformed timestamp — the bad record is dropped, the good one survives. -/
theorem C8_witness :
    ∃ parsed : List Trade,
      parsed = List.filterMap (fun t => (Trade.try_from 11 t).toOption)
          [{ id := 1, price := 100, side := "buy", size := 2
             liquidation := false, time := "123" },
           { id := 2, price := 101, side := "sell", size := 3
             liquidation := false, time := "not-a-time" }]
      ∧ process_ws_msg 11
          { channel := "trades"
            market := some "BTC/USD"
            data := ws.Data.Trades
              [{ id := 1, price := 100, side := "buy", size := 2
                 liquidation := false, time := "123" },
               { id := 2, price := 101, side := "sell", size := 3
                 liquidation := false, time := "not-a-time" }]
            type := none } []
          = some (.ok (some { type := .trades "BTC/USD" parsed
                              timestamp := 11 }), [])
      ∧ (∀ dt : Trade,
          dt ∈ parsed
            ↔ ∃ t ∈ [({ id := 1, price := 100, side := "buy", size := 2
                        liquidation := false, time := "123" } : ws.Trade),
                     { id := 2, price := 101, side := "sell", size := 3
                       liquidation := false, time := "not-a-time" }],
                Trade.try_from 11 t = .ok dt) :=
  C8_trades_filtered_individually 11
    { channel := "trades"
      market := some "BTC/USD"
      data := ws.Data.Trades
        [{ id := 1, price := 100, side := "buy", size := 2
           liquidation := false, time := "123" },
         { id := 2, price := 101, side := "sell", size := 3
           liquidation := false, time := "not-a-time" }]
      type := none }
    [{ id := 1, price := 100, side := "buy", size := 2
       liquidation := false, time := "123" },
     { id := 2, price := 101, side := "sell", size := 3
       liquidation := false, time := "not-a-time" }]
    "BTC/USD" [] rfl rfl

/-- C10: `fetch_markets` never returns an error because an individual market
record fails domain translation — every record whose conversion fails is
silently omitted and the result contains exactly the successfully translated
markets. -/
theorem C10_fetch_markets_swallows_bad_records (ms : List rest.MarketInfo) :
    ∃ l : List Market,
      fetch_markets ms = .ok l
      ∧ l = ms.filterMap (fun m => (Market.try_from m).toOption)
      ∧ (∀ x : Market, x ∈ l ↔ ∃ m ∈ ms, Market.try_from m = .ok x) := by
  refine ⟨_, rfl, rfl, ?_⟩
  intro x
  rw [List.mem_filterMap]
  constructor
  · intro hh
    obtain ⟨m, hm, he⟩ := hh
    exact ⟨m, hm, (except_toOption_eq_some _ _).mp he⟩
  · intro hh
    obtain ⟨m, hm, he⟩ := hh
    exact ⟨m, hm, (except_toOption_eq_some _ _).mpr he⟩

/-! ## Control-loop classification lemmas -/

theorem run_events_kind :
    ∀ (evs : List LoopEvent) (c : ControlEngine),
      (run_events c evs).kind = classifyEvents evs := by
  intro evs
  induction evs with
  | nil => intro c; rfl
  | cons e evs ih =>
    intro c
    cases e with
    | msgOk m =>
      simp only [run_events, classifyEvents]
      split
      · exact ih _
      · exact ih _
    | msgErr => rfl
    | disconnected => rfl
    | pingTick sendOk =>
      simp only [run_events, classifyEvents]
      split
      · exact ih _
      · rfl
    | shutdownTriggered => rfl

theorem control_loop_kind (c : ControlEngine) (a : ConnAttempt) :
    (control_loop c a).kind = classifyAttempt a := by
  unfold control_loop classifyAttempt
  split
  · split
    · exact run_events_kind _ _
    · rfl
  · rfl

theorem control_loop_exitErr {a : ConnAttempt} (c : ControlEngine)
    (h : classifyAttempt a = AttemptKind.exitErr) :
    ∃ c2, control_loop c a = LoopOutcome.exited c2 (.error {}) := by
  have hk := control_loop_kind c a
  rw [h] at hk
  cases ho : control_loop c a with
  | panicked => rw [ho] at hk; simp [LoopOutcome.kind] at hk
  | running c2 => rw [ho] at hk; simp [LoopOutcome.kind] at hk
  | exited c2 r =>
    cases r with
    | ok u => rw [ho] at hk; simp [LoopOutcome.kind] at hk
    | error e =>
      cases e
      exact ⟨c2, rfl⟩

theorem control_loop_exitOk {a : ConnAttempt} (c : ControlEngine)
    (h : classifyAttempt a = AttemptKind.exitOk) :
    ∃ c2, control_loop c a = LoopOutcome.exited c2 (.ok ()) := by
  have hk := control_loop_kind c a
  rw [h] at hk
  cases ho : control_loop c a with
  | panicked => rw [ho] at hk; simp [LoopOutcome.kind] at hk
  | running c2 => rw [ho] at hk; simp [LoopOutcome.kind] at hk
  | exited c2 r =>
    cases r with
    | ok u =>
      cases u
      exact ⟨c2, rfl⟩
    | error e => rw [ho] at hk; simp [LoopOutcome.kind] at hk

theorem start_retries_until_shutdown :
    ∀ (fails : List ConnAttempt) (c : ControlEngine) (backoff : Nat)
      (final : ConnAttempt),
      (∀ a ∈ fails, classifyAttempt a = AttemptKind.exitErr) →
      classifyAttempt final = AttemptKind.exitOk →
      ∃ c2, ControlEngine.start c backoff (fails ++ [final])
        = StartOutcome.returned c2 (backoff + fails.length) := by
  intro fails
  induction fails with
  | nil =>
    intro c backoff final _ hfin
    obtain ⟨c2, h2⟩ := control_loop_exitOk c hfin
    refine ⟨c2, ?_⟩
    show ControlEngine.start c backoff [final] = _
    simp only [ControlEngine.start]
    rw [h2]
    simp
  | cons a fails ih =>
    intro c backoff final hf hfin
    obtain ⟨c2, h2⟩ := control_loop_exitErr c (hf a (by simp))
    have hf2 : ∀ x ∈ fails, classifyAttempt x = AttemptKind.exitErr :=
      fun x hx => hf x (by simp [hx])
    obtain ⟨c3, h3⟩ := ih c2 (backoff + 1) final hf2 hfin
    refine ⟨c3, ?_⟩
    rw [List.cons_append]
    simp only [ControlEngine.start]
    rw [h2]
    show ControlEngine.start c2 (backoff + 1) (fails ++ [final]) = _
    rw [h3]
    congr 1
    simp [List.length_cons]
    omega

/-- C5 (counterexample): the claim says every transport error makes the
inner loop return an error, never panicking and never continuing past it;
but a failed `Hello` send is only logged — the loop continues and can even
exit `Ok` on shutdown — and a failed `Ping` send is unwrapped — a panic. -/
theorem C5_counterexample :
    control_loop (ControlEngine.new ⟨1⟩ "srv")
        { tokenOk := true, connectOk := true, helloSendOk := false
          events := [LoopEvent.shutdownTriggered] }
      = LoopOutcome.exited
          { bot_id := ⟨1⟩, server_addr := "srv"
            status := BotnodeStatus.Connecting, ping_interval := 5 }
          (.ok ())
    ∧ control_loop (ControlEngine.new ⟨1⟩ "srv")
        { tokenOk := true, connectOk := true, helloSendOk := true
          events := [LoopEvent.pingTick false] }
      = LoopOutcome.panicked := by
  exact ⟨rfl, rfl⟩

/-- C5 (amended): every receive-path failure (inbound frame error or clean
close) aborts the attempt with an error from the inner loop; the outer
driver catches each error, sleeps the fixed one-second backoff (one second
per failed attempt, no growth), and retries unconditionally until an attempt
observes shutdown, at which point `start` returns `Ok(())`.  (A `Hello`-send
failure is only logged and the attempt continues; a `Ping`-send failure
panics — see the counterexample.) -/
theorem C5_amended_retry_until_shutdown (c : ControlEngine)
    (fails : List ConnAttempt) (final : ConnAttempt)
    (hf : ∀ a ∈ fails, classifyAttempt a = AttemptKind.exitErr)
    (hfin : classifyAttempt final = AttemptKind.exitOk) :
    (∀ (c2 : ControlEngine) (evs : List LoopEvent),
      run_events c2 (LoopEvent.msgErr :: evs)
          = LoopOutcome.exited c2 (.error {})
      ∧ run_events c2 (LoopEvent.disconnected :: evs)
          = LoopOutcome.exited c2 (.error {}))
    ∧ ∃ c2, ControlEngine.start c 0 (fails ++ [final])
        = StartOutcome.returned c2 fails.length := by
  refine ⟨fun c2 evs => ⟨rfl, rfl⟩, ?_⟩
  obtain ⟨c2, h2⟩ := start_retries_until_shutdown fails c 0 final hf hfin
  rw [Nat.zero_add] at h2
  exact ⟨c2, h2⟩

/-- Witness for C5 (amended): two failing attempts (an inbound frame error,
then a connect failure), then an attempt that observes shutdown — start
returns after exactly two one-second backoffs. -/
theorem C5_witness :
    (∀ (c2 : ControlEngine) (evs : List LoopEvent),
      run_events c2 (LoopEvent.msgErr :: evs)
          = LoopOutcome.exited c2 (.error {})
      ∧ run_events c2 (LoopEvent.disconnected :: evs)
          = LoopOutcome.exited c2 (.error {}))
    ∧ ∃ c2, ControlEngine.start (ControlEngine.new ⟨1⟩ "srv") 0
        ([{ tokenOk := true, connectOk := true, helloSendOk := true
            events := [LoopEvent.msgErr] },
          { tokenOk := true, connectOk := false, helloSendOk := true
            events := [] }]
          ++ [{ tokenOk := true, connectOk := true, helloSendOk := true
                events := [LoopEvent.msgOk Message.ping,
                           LoopEvent.shutdownTriggered] }])
        = StartOutcome.returned c2
            ([{ tokenOk := true, connectOk := true, helloSendOk := true
                events := [LoopEvent.msgErr] },
              { tokenOk := true, connectOk := false, helloSendOk := true
                events := [] }] : List ConnAttempt).length :=
  C5_amended_retry_until_shutdown (ControlEngine.new ⟨1⟩ "srv")
    [{ tokenOk := true, connectOk := true, helloSendOk := true
       events := [LoopEvent.msgErr] },
     { tokenOk := true, connectOk := false, helloSendOk := true
       events := [] }]
    { tokenOk := true, connectOk := true, helloSendOk := true
      events := [LoopEvent.msgOk Message.ping, LoopEvent.shutdownTriggered] }
    (by decide) (by decide)

/-- C6 (counterexample): the claim says the status is set to `Offline`
whenever the inner loop exits with an error; but after a first valid
message (status `Online`) an inbound error exits the loop with the status
still `Online` — nothing resets it. -/
theorem C6_counterexample :
    control_loop (ControlEngine.new ⟨1⟩ "srv")
        { tokenOk := true, connectOk := true, helloSendOk := true
          events := [LoopEvent.msgOk (Message.other "hi"),
                     LoopEvent.msgErr] }
      = LoopOutcome.exited
          { bot_id := ⟨1⟩, server_addr := "srv"
            status := BotnodeStatus.Online, ping_interval := 5 }
          (.error {})
    ∧ BotnodeStatus.Online ≠ BotnodeStatus.Offline := by
  exact ⟨rfl, by decide⟩

/-- C6 (amended): the status is `Offline` initially, set to `Connecting` on
each loop entry before dialing, set to `Online` on the first valid inbound
message while `Offline` or `Connecting` (and left alone when already
`Online`); when the inner loop exits with an error the status is NOT reset
to `Offline` — it keeps the value it had at the point of failure. -/
theorem C6_amended_status_machine :
    (∀ (b : BotId) (addr : String),
      (ControlEngine.new b addr).status = BotnodeStatus.Offline)
    ∧ (∀ (c : ControlEngine) (a : ConnAttempt), a.tokenOk = true →
        a.connectOk = false →
        control_loop c a
          = LoopOutcome.exited { c with status := BotnodeStatus.Connecting }
              (.error {}))
    ∧ (∀ (c : ControlEngine) (a : ConnAttempt), a.tokenOk = true →
        a.connectOk = true →
        control_loop c a
          = run_events { c with status := BotnodeStatus.Connecting }
              a.events)
    ∧ (∀ (c : ControlEngine) (m : Message) (evs : List LoopEvent),
        c.status = BotnodeStatus.Offline
          ∨ c.status = BotnodeStatus.Connecting →
        run_events c (LoopEvent.msgOk m :: evs)
          = run_events { c with status := BotnodeStatus.Online } evs)
    ∧ (∀ (c : ControlEngine) (m : Message) (evs : List LoopEvent),
        c.status = BotnodeStatus.Online →
        run_events c (LoopEvent.msgOk m :: evs) = run_events c evs)
    ∧ (∀ (c : ControlEngine) (evs : List LoopEvent),
        run_events c (LoopEvent.msgErr :: evs)
          = LoopOutcome.exited c (.error {})
        ∧ run_events c (LoopEvent.disconnected :: evs)
          = LoopOutcome.exited c (.error {})) := by
  refine ⟨fun b addr => rfl, ?_, ?_, ?_, ?_, fun c evs => ⟨rfl, rfl⟩⟩
  · intro c a h1 h2
    simp [control_loop, h1, h2]
  · intro c a h1 h2
    simp [control_loop, h1, h2]
  · intro c m evs h
    simp [run_events, h]
  · intro c m evs h
    simp [run_events, h]

/-- Witness for C6 (amended): from the freshly constructed engine
(`Offline`), a first valid message moves the status to `Online`. -/
theorem C6_witness :
    run_events (ControlEngine.new ⟨2⟩ "addr") [LoopEvent.msgOk Message.ping]
      = run_events
          { ControlEngine.new ⟨2⟩ "addr" with
              status := BotnodeStatus.Online } [] :=
  C6_amended_status_machine.2.2.2.1 (ControlEngine.new ⟨2⟩ "addr")
    Message.ping [] (Or.inl rfl)

/-- C9 (counterexample): the claim says the reader returned by
`ControlEngine::data_rx` can observe events the running control engine
publishes; but `data_rx` builds a fresh channel, drops its only sender and
returns its receiver — `recv` on it can never yield anything. -/
theorem C9_counterexample :
    RingReceiver.recv (ControlEngine.data_rx (ControlEngine.new ⟨1⟩ "srv"))
        = none
    ∧ (ControlEngine.data_rx (ControlEngine.new ⟨1⟩ "srv")).senderAlive
        = false
    ∧ (ControlEngine.data_rx (ControlEngine.new ⟨1⟩ "srv")).buffer = [] := by
  exact ⟨rfl, rfl, rfl⟩

/-- C9 (amended): for every control engine, `data_rx` returns the receiver
of a freshly created dummy channel of capacity 1024 whose sender has been
dropped and whose buffer is empty — it is not bound to any engine-internal
output channel, and no event can ever be received from it. -/
theorem C9_amended_data_rx_dummy (c : ControlEngine) :
    c.data_rx
      = { capacity := 1024, buffer := [], senderAlive := false }
    ∧ RingReceiver.recv c.data_rx = none := by
  exact ⟨rfl, rfl⟩

end Botnode
